import Mathlib

/-!
Shallow embedding of njunmt/utils/model_builder.py (NJUNMT-tf).

The file models the three components of the source module:
EstimatorSpec (a validated result record), model_fn (mode-dispatched
estimator assembly) and model_fn_ensemble (checkpoint reloading with
per-index variable namespaces), together with the helper
_inspect_varname_prefix. Tensors, ops and hook objects are abstracted
by type parameters and by a capability flag, since the source only
passes them around; all control flow, validation order, string
manipulation and collection registration is translated directly.
-/

namespace ModelBuilder

/-- Execution modes, mirroring tf.contrib.learn.ModeKeys as used by the source. -/
inductive ModeKeys where
  | TRAIN
  | EVAL
  | INFER
deriving DecidableEq, Repr

/-- A lifecycle-hook object; `isSessionRunHook` records whether the object
passes the isinstance(hook, tf.train.SessionRunHook) test of the source. -/
structure HookObj where
  hookId : Nat
  isSessionRunHook : Bool
deriving DecidableEq, Repr

/-- Python exceptions raised by the translated code paths. -/
inductive PyError where
  | valueError (msg : String)
  | typeError (msg : String)
  | indexError
  | assertionError (msg : String)
deriving DecidableEq, Repr

/-- The result record: a namedtuple with exactly the five fields listed in the
source (`predictions`, `loss`, `train_op`, `training_chief_hooks`,
`training_hooks`). The mode argument of the constructor is not among them. -/
structure EstimatorSpec (V : Type) where
  predictions : Option (List V)
  loss : Option V
  train_op : Option V
  training_chief_hooks : List HookObj
  training_hooks : List HookObj
deriving DecidableEq, Repr

/-- Translation of EstimatorSpec.__new__: mode-dependent field validation in
source order, then materialization of the hook arguments as sequences
(None becomes the empty sequence), then the per-hook isinstance check over
training_hooks ++ training_chief_hooks. -/
def EstimatorSpec.new {V : Type} (mode : ModeKeys)
    (predictions : Option (List V)) (loss : Option V) (train_op : Option V)
    (training_chief_hooks : Option (List HookObj))
    (training_hooks : Option (List HookObj)) :
    Except PyError (EstimatorSpec V) :=
  if predictions.isNone && (mode == ModeKeys.INFER) then
    Except.error (PyError.valueError "Missing predictions")
  else if loss.isNone && (mode == ModeKeys.TRAIN || mode == ModeKeys.EVAL) then
    Except.error (PyError.valueError "Missing loss.")
  else if train_op.isNone && (mode == ModeKeys.TRAIN) then
    Except.error (PyError.valueError "Missing train_op.")
  else
    let tch := training_chief_hooks.getD []
    let th := training_hooks.getD []
    match (th ++ tch).find? (fun h => !h.isSessionRunHook) with
    | some _ =>
        Except.error (PyError.typeError "All hooks must be SessionRunHook instances")
    | none =>
        Except.ok
          { predictions := predictions
            loss := loss
            train_op := train_op
            training_chief_hooks := tch
            training_hooks := th }

namespace GlobalNames

/-- Modelled from the spec: the module njunmt/utils/global_names.py is not
under src; the spec describes a process-wide named collection of display
keys. The concrete literal is irrelevant to every claim, only fixedness is. -/
def DISPLAY_KEY_COLLECTION_NAME : String := "display_key_collection"

/-- Modelled from the spec: the companion collection holding display values. -/
def DISPLAY_VALUE_COLLECTION_NAME : String := "display_value_collection"

/-- Modelled from the spec: the fixed training-loss display key. -/
def TRAIN_LOSS_KEY_NAME : String := "training loss"

/-- Modelled from the spec: the fixed ensemble variable-scope base string;
the source appends str(index) to it to obtain the per-checkpoint namespace. -/
def ENSEMBLE_VARNAME_PREFIX : String := "ensemble_"

end GlobalNames

/-- A write into a process-wide named collection: the collection name paired
with the registered item, which is either a display-key string or a value. -/
def CollectionWrite (V : Type) : Type := String × (String ⊕ V)

/-- External collaborators of model_fn, abstracted: the build output of the
instantiated model, the optimizer (loss to train_op), build_hooks
(distributed_mode, is_chief to hooks) and build_eval_metrics (is_chief to
hooks; its other arguments do not vary inside model_fn). -/
structure ModelFnInputs (V : Type) where
  modelOutput : List V
  optimizeFn : V → V
  buildHooksFn : Bool → Bool → List HookObj
  buildEvalMetricsFn : Bool → List HookObj

/-- Translation of model_fn, mode dispatch only (model instantiation and graph
scoping are collaborator calls). The second component is the ordered log of
add_to_collection writes performed by the call; in TRAIN mode the writes
happen after the loss extraction and before the record is validated, exactly
as in the source. -/
def modelFn {V : Type} (inp : ModelFnInputs V) (mode : ModeKeys)
    (distributed_mode is_chief : Bool) :
    Except PyError (EstimatorSpec V) × List (CollectionWrite V) :=
  match mode with
  | ModeKeys.TRAIN =>
    match inp.modelOutput with
    | [] => (Except.error PyError.indexError, [])
    | loss :: _ =>
      let writes : List (CollectionWrite V) :=
        [(GlobalNames.DISPLAY_KEY_COLLECTION_NAME, Sum.inl GlobalNames.TRAIN_LOSS_KEY_NAME),
         (GlobalNames.DISPLAY_VALUE_COLLECTION_NAME, Sum.inr loss)]
      let train_op := inp.optimizeFn loss
      let hooks := inp.buildHooksFn distributed_mode is_chief ++
        inp.buildEvalMetricsFn is_chief
      (EstimatorSpec.new ModeKeys.TRAIN none (some loss) (some train_op)
        none (some hooks), writes)
  | ModeKeys.EVAL =>
    match inp.modelOutput with
    | [] => (Except.error PyError.indexError, [])
    | loss :: _ =>
      (EstimatorSpec.new ModeKeys.EVAL none (some loss) none none none, [])
  | ModeKeys.INFER =>
    (EstimatorSpec.new ModeKeys.INFER (some inp.modelOutput) none none none none, [])

/-- Index of the first occurrence of `pat` in a character list, the semantics
of the Python substring test and str.index. -/
def sublistIdx (pat : List Char) : List Char → Option Nat
  | [] => if pat.isPrefixOf ([] : List Char) then some 0 else none
  | c :: t =>
    if pat.isPrefixOf (c :: t) then some 0
    else (sublistIdx pat t).map (· + 1)

/-- Python var_name.index(pat) combined with the `in` test, on strings. -/
def strIndexOf (s pat : String) : Option Nat := sublistIdx pat.data s.data

/-- Python s.startswith(pat). -/
def pyStartsWith (s pat : String) : Bool := pat.data.isPrefixOf s.data

/-- Translation of _inspect_varname_prefix: try the marker
"/input_symbol_modality" first, then "/symbol_modality_"; on a hit return the
substring before the first occurrence, otherwise None. -/
def inspectVarnamePrefixFn (var_name : String) : Option String :=
  match strIndexOf var_name "/input_symbol_modality" with
  | some i => some (String.mk (var_name.data.take i))
  | none =>
    match strIndexOf var_name "/symbol_modality_" with
    | some i => some (String.mk (var_name.data.take i))
    | none => none

/-- Scope name of checkpoint `index` inside the ensemble build:
ENSEMBLE_VARNAME_PREFIX + str(index). -/
def ensembleScopeName (index : Nat) : String :=
  GlobalNames.ENSEMBLE_VARNAME_PREFIX ++ Nat.repr index

/-- Full name under which a checkpoint variable is re-declared: the variable
scope qualifies the original name with a slash. -/
def reloadedVarName (index : Nat) (var_name : String) : String :=
  ensembleScopeName index ++ "/" ++ var_name

/-- One iteration of the per-checkpoint variable loop of model_fn_ensemble:
skip optimizer-state variables, otherwise update the still-unresolved model
name via _inspect_varname_prefix and re-declare the variable inside the
per-index scope. The accumulator carries the model name resolved so far and
the reloaded full variable names in declaration order. -/
def loadCheckpointStep (index : Nat) (acc : Option String × List String)
    (var_name : String) : Option String × List String :=
  if pyStartsWith var_name "OptimizeLoss" then acc
  else
    let name :=
      match acc.1 with
      | some n => some n
      | none => inspectVarnamePrefixFn var_name
    (name, acc.2 ++ [reloadedVarName index var_name])

/-- The whole variable loop for the checkpoint at position `index`. -/
def loadCheckpointVars (index : Nat) (varNames : List String) :
    Option String × List String :=
  varNames.foldl (loadCheckpointStep index) (none, [])

/-- The checkpoint loop of model_fn_ensemble, carrying the running index: each
checkpoint yields its resolved model name and its reloaded variable names. The
assert model_name of the source fails on every falsy value, so the build
aborts both when the name is still None and when the inferred name is the
empty string (which happens when the first matching variable name begins with
one of the two markers). -/
def ensembleLoadLoop : Nat → List (List String) →
    Except PyError (List (String × List String))
  | _, [] => Except.ok []
  | index, vars :: rest =>
    match loadCheckpointVars index vars with
    | (none, _) => Except.error (PyError.assertionError "Fail to fetch model name")
    | (some name, reloaded) =>
      if name = "" then
        Except.error (PyError.assertionError "Fail to fetch model name")
      else
        (ensembleLoadLoop (index + 1) rest).map (fun ms => (name, reloaded) :: ms)

/-- Translation of model_fn_ensemble: run the load loop from index 0 over the
checkpoint directories (given by their variable-name listings), then build the
ensemble predictions (a collaborator output, abstracted as a parameter) and
package them in an INFER-mode EstimatorSpec. -/
def modelFnEnsemble {V : Type} (checkpoints : List (List String))
    (ensemblePredictions : List V) :
    Except PyError (EstimatorSpec V × List (String × List String)) :=
  (ensembleLoadLoop 0 checkpoints).bind fun models =>
    (EstimatorSpec.new ModeKeys.INFER (some ensemblePredictions)
      none none none none).map fun spec => (spec, models)

/-- The model name a checkpoint variable listing resolves to: the first
non-optimizer variable on which _inspect_varname_prefix succeeds. -/
def checkpointModelName (varNames : List String) : Option String :=
  (varNames.filter (fun v => !(pyStartsWith v "OptimizeLoss"))).findSome?
    inspectVarnamePrefixFn

/-- Decimal digit characters of n, most significant first; reference rendering
used to reason about Nat.repr, which mirrors Python str(index). -/
def decDigits (n : Nat) : List Char :=
  if n < 10 then [Nat.digitChar n]
  else decDigits (n / 10) ++ [Nat.digitChar (n % 10)]
decreasing_by exact Nat.div_lt_self (by omega) (by omega)

lemma toDigitsCore_eq_decDigits :
    ∀ (f n : Nat) (acc : List Char), n < f →
      Nat.toDigitsCore 10 f n acc = decDigits n ++ acc := by
  intro f
  induction f with
  | zero => intro n acc h; omega
  | succ f ih =>
    intro n acc h
    by_cases h10 : n < 10
    · have hdiv : n / 10 = 0 := Nat.div_eq_of_lt h10
      rw [decDigits]
      simp [Nat.toDigitsCore, hdiv, h10, Nat.mod_eq_of_lt h10]
    · have hdiv : n / 10 ≠ 0 := by
        have : 1 ≤ n / 10 := (Nat.one_le_div_iff (by omega)).mpr (by omega)
        omega
      have hlt : n / 10 < f := by
        have h1 : n / 10 < n := Nat.div_lt_self (by omega) (by omega)
        omega
      rw [decDigits]
      simp only [Nat.toDigitsCore, hdiv, if_neg, h10, if_false]
      rw [ih (n / 10) (Nat.digitChar (n % 10) :: acc) hlt]
      simp [List.append_assoc]

lemma repr_data (n : Nat) : (Nat.repr n).data = decDigits n := by
  show (Nat.toDigits 10 n).asString.data = decDigits n
  rw [Nat.toDigits, toDigitsCore_eq_decDigits (n + 1) n [] (Nat.lt_succ_self n)]
  simp [List.asString]

/-- Value of a decimal digit string, the left inverse of decDigits. -/
def decVal (l : List Char) : Nat :=
  l.foldl (fun a c => 10 * a + (c.toNat - 48)) 0

lemma digitChar_toNat (d : Nat) (h : d < 10) : (Nat.digitChar d).toNat = 48 + d := by
  interval_cases d <;> rfl

lemma decVal_go (n : Nat) :
    ∀ a, List.foldl (fun a c => 10 * a + (c.toNat - 48)) a (decDigits n) =
      a * 10 ^ (decDigits n).length + n := by
  induction n using Nat.strong_induction_on with
  | _ n ih =>
    intro a
    by_cases h : n < 10
    · rw [decDigits, if_pos h]
      simp [List.foldl, digitChar_toNat n h]
      omega
    · rw [decDigits, if_neg h]
      rw [List.foldl_append]
      rw [ih (n / 10) (Nat.div_lt_self (by omega) (by omega)) a]
      simp [List.foldl, digitChar_toNat (n % 10) (Nat.mod_lt n (by omega))]
      have hdm := Nat.div_add_mod n 10
      rw [pow_succ]
      ring_nf
      omega

lemma decVal_decDigits (n : Nat) : decVal (decDigits n) = n := by
  simpa [decVal] using decVal_go n 0

lemma natRepr_injective {m n : Nat} (h : Nat.repr m = Nat.repr n) : m = n := by
  have hd : decDigits m = decDigits n := by
    rw [← repr_data, ← repr_data, h]
  have := congrArg decVal hd
  rwa [decVal_decDigits, decVal_decDigits] at this

lemma digitChar_ne_slash (d : Nat) (h : d < 10) : Nat.digitChar d ≠ '/' := by
  interval_cases d <;> decide

lemma decDigits_ne_slash (n : Nat) : ∀ c ∈ decDigits n, c ≠ '/' := by
  induction n using Nat.strong_induction_on with
  | _ n ih =>
    intro c hc
    by_cases h : n < 10
    · rw [decDigits, if_pos h] at hc
      simp at hc
      rw [hc]
      exact digitChar_ne_slash n h
    · rw [decDigits, if_neg h] at hc
      rcases List.mem_append.mp hc with h1 | h2
      · exact ih (n / 10) (Nat.div_lt_self (by omega) (by omega)) c h1
      · simp at h2
        rw [h2]
        exact digitChar_ne_slash (n % 10) (Nat.mod_lt n (by omega))

lemma append_sep_inj :
    ∀ (xs ys as bs : List Char),
      (∀ c ∈ xs, c ≠ '/') → (∀ c ∈ ys, c ≠ '/') →
      xs ++ '/' :: as = ys ++ '/' :: bs → xs = ys ∧ as = bs := by
  intro xs
  induction xs with
  | nil =>
    intro ys as bs _ hys heq
    cases ys with
    | nil =>
      simp only [List.nil_append] at heq
      exact ⟨rfl, (List.cons.inj heq).2⟩
    | cons y yt =>
      exfalso
      simp only [List.nil_append, List.cons_append] at heq
      exact hys y (by simp) (List.cons.inj heq).1.symm
  | cons x xt ih =>
    intro ys as bs hxs hys heq
    cases ys with
    | nil =>
      exfalso
      simp only [List.nil_append, List.cons_append] at heq
      exact hxs x (by simp) (List.cons.inj heq).1
    | cons y yt =>
      simp only [List.cons_append] at heq
      obtain ⟨hxy, htail⟩ := List.cons.inj heq
      obtain ⟨h1, h2⟩ := ih yt as bs (fun c hc => hxs c (by simp [hc]))
        (fun c hc => hys c (by simp [hc])) htail
      exact ⟨by rw [hxy, h1], h2⟩

lemma reloadedVarName_inj {i j : Nat} {n m : String}
    (h : reloadedVarName i n = reloadedVarName j m) : i = j ∧ n = m := by
  have hdata : ((GlobalNames.ENSEMBLE_VARNAME_PREFIX.data ++ (Nat.repr i).data) ++
      "/".data) ++ n.data =
      ((GlobalNames.ENSEMBLE_VARNAME_PREFIX.data ++ (Nat.repr j).data) ++
      "/".data) ++ m.data := congrArg String.data h
  have hslash : "/".data = ['/'] := rfl
  rw [hslash] at hdata
  simp only [List.append_assoc, List.singleton_append] at hdata
  have hcan := List.append_cancel_left hdata
  have hne1 : ∀ c ∈ (Nat.repr i).data, c ≠ '/' := by
    rw [repr_data]; exact decDigits_ne_slash i
  have hne2 : ∀ c ∈ (Nat.repr j).data, c ≠ '/' := by
    rw [repr_data]; exact decDigits_ne_slash j
  obtain ⟨hr, hn⟩ := append_sep_inj _ _ _ _ hne1 hne2 hcan
  exact ⟨natRepr_injective (String.ext hr), String.ext hn⟩

lemma reloadedVarName_name_injective {i : Nat} {a b : String}
    (h : reloadedVarName i a = reloadedVarName i b) : a = b := by
  have hdata : (ensembleScopeName i ++ "/").data ++ a.data =
      (ensembleScopeName i ++ "/").data ++ b.data := congrArg String.data h
  exact String.ext (List.append_cancel_left hdata)

lemma foldl_loadCheckpointStep_snd (i : Nat) :
    ∀ (vars : List String) (acc : Option String × List String),
      (vars.foldl (loadCheckpointStep i) acc).2 =
        acc.2 ++ (vars.filter (fun v => !(pyStartsWith v "OptimizeLoss"))).map
          (reloadedVarName i) := by
  intro vars
  induction vars with
  | nil => intro acc; simp
  | cons v t ih =>
    intro acc
    by_cases hv : pyStartsWith v "OptimizeLoss"
    · simp [loadCheckpointStep, hv, ih]
    · simp [loadCheckpointStep, hv, ih]

lemma foldl_loadCheckpointStep_fst (i : Nat) :
    ∀ (vars : List String) (acc : Option String × List String),
      (vars.foldl (loadCheckpointStep i) acc).1 =
        match acc.1 with
        | some n => some n
        | none =>
          (vars.filter (fun v => !(pyStartsWith v "OptimizeLoss"))).findSome?
            inspectVarnamePrefixFn := by
  intro vars
  induction vars with
  | nil => intro acc; cases hacc : acc.1 <;> simp [hacc]
  | cons v t ih =>
    intro acc
    by_cases hv : pyStartsWith v "OptimizeLoss"
    · simp only [List.foldl, loadCheckpointStep, hv, if_pos, List.filter]
      rw [ih acc]
      simp [hv]
    · simp only [List.foldl, loadCheckpointStep, hv, if_neg, Bool.false_eq_true,
        not_false_iff]
      rw [ih]
      cases hacc : acc.1 with
      | some n => simp [hv]
      | none =>
        cases hins : inspectVarnamePrefixFn v with
        | some m => simp [hv, List.findSome?_cons, hins]
        | none => simp [hv, List.findSome?_cons, hins]

lemma loadCheckpointVars_snd (i : Nat) (vars : List String) :
    (loadCheckpointVars i vars).2 =
      (vars.filter (fun v => !(pyStartsWith v "OptimizeLoss"))).map
        (reloadedVarName i) := by
  rw [loadCheckpointVars, foldl_loadCheckpointStep_snd]
  simp

lemma loadCheckpointVars_fst (i : Nat) (vars : List String) :
    (loadCheckpointVars i vars).1 = checkpointModelName vars := by
  rw [loadCheckpointVars, foldl_loadCheckpointStep_fst]
  rfl



lemma ensembleLoadLoop_ok_of_names (nm : String) (hne : nm ≠ "") :
    ∀ (ckpts : List (List String)) (s : Nat),
      (∀ c ∈ ckpts, checkpointModelName c = some nm) →
      ∃ ms, ensembleLoadLoop s ckpts = Except.ok ms ∧ ∀ m ∈ ms, m.1 = nm := by
  intro ckpts
  induction ckpts with
  | nil => intro s _; exact ⟨[], rfl, by simp⟩
  | cons c t ih =>
    intro s hall
    have hc : (loadCheckpointVars s c).1 = some nm := by
      rw [loadCheckpointVars_fst]; exact hall c (by simp)
    obtain ⟨ms, hms, hnames⟩ := ih (s + 1) (fun d hd => hall d (by simp [hd]))
    refine ⟨(nm, (loadCheckpointVars s c).2) :: ms, ?_, ?_⟩
    · rw [ensembleLoadLoop]
      rcases hload : loadCheckpointVars s c with ⟨n1, r2⟩
      rw [hload] at hc
      simp only at hc
      subst hc
      simp [hms, hload, Except.map, hne]
    · intro m hm
      rcases List.mem_cons.mp hm with rfl | hm2
      · rfl
      · exact hnames m hm2

lemma ensembleLoadLoop_error_of_falsy :
    ∀ (ckpts : List (List String)) (s : Nat) (c : List String),
      c ∈ ckpts →
      (checkpointModelName c = none ∨ checkpointModelName c = some "") →
      ensembleLoadLoop s ckpts =
        Except.error (PyError.assertionError "Fail to fetch model name") := by
  intro ckpts
  induction ckpts with
  | nil => intro s c hc _; simp at hc
  | cons d t ih =>
    intro s c hc hfal
    rw [ensembleLoadLoop]
    rcases hload : loadCheckpointVars s d with ⟨n1, r2⟩
    cases n1 with
    | none => rfl
    | some nm =>
      by_cases hnm : nm = ""
      · simp [hnm]
      · rcases List.mem_cons.mp hc with rfl | hct
        · exfalso
          have hfst := loadCheckpointVars_fst s c
          rw [hload] at hfst
          rcases hfal with h0 | h0 <;> rw [h0] at hfst <;> simp_all
        · simp [hnm, ih (s + 1) c hct hfal, Except.map]



lemma EstimatorSpec.new_ok {V : Type} {mode : ModeKeys} {p : Option (List V)}
    {l t : Option V} {ch th : Option (List HookObj)} {s : EstimatorSpec V}
    (h : EstimatorSpec.new mode p l t ch th = Except.ok s) :
    s = ⟨p, l, t, ch.getD [], th.getD []⟩ := by
  unfold EstimatorSpec.new at h
  split at h
  · exact absurd h (by simp)
  · split at h
    · exact absurd h (by simp)
    · split at h
      · exact absurd h (by simp)
      · dsimp only at h
        split at h
        · exact absurd h (by simp)
        · exact (Except.ok.inj h).symm

/-- C1: for every mode, the mode-required fields are enforced at construction:
INFER without predictions, TRAIN or EVAL without loss, and TRAIN without
train_op each fail with the corresponding ValueError, while supplying exactly
the required fields of the mode succeeds and yields the validated record. -/
theorem C1_mode_required_fields (V : Type) (l t : Option V) (p : Option (List V))
    (pv : List V) (lv tv : V) :
    (EstimatorSpec.new (V := V) ModeKeys.INFER none l t none none =
      Except.error (PyError.valueError "Missing predictions")) ∧
    (EstimatorSpec.new ModeKeys.TRAIN p none t none none =
      Except.error (PyError.valueError "Missing loss.")) ∧
    (EstimatorSpec.new ModeKeys.EVAL p none t none none =
      Except.error (PyError.valueError "Missing loss.")) ∧
    (EstimatorSpec.new ModeKeys.TRAIN p (some lv) none none none =
      Except.error (PyError.valueError "Missing train_op.")) ∧
    (EstimatorSpec.new ModeKeys.INFER (some pv) none none none none =
      Except.ok ⟨some pv, none, none, [], []⟩) ∧
    (EstimatorSpec.new ModeKeys.TRAIN none (some lv) (some tv) none none =
      Except.ok ⟨none, some lv, some tv, [], []⟩) ∧
    (EstimatorSpec.new ModeKeys.EVAL none (some lv) none none none =
      Except.ok ⟨none, some lv, none, [], []⟩) := by
  refine ⟨rfl, ?_, ?_, ?_, rfl, rfl, rfl⟩ <;> cases p <;> rfl

/-- C3 counterexample: the claim says the mode passed at construction is
exposed as a field of the returned record; but two constructions that differ
only in the mode return identical records, so no field of the record carries
the mode. -/
theorem C3_counterexample :
    EstimatorSpec.new (V := Nat) ModeKeys.TRAIN (some [1]) (some 2) (some 3) none none =
      EstimatorSpec.new (V := Nat) ModeKeys.EVAL (some [1]) (some 2) (some 3) none none ∧
    ModeKeys.TRAIN ≠ ModeKeys.EVAL :=
  ⟨rfl, by decide⟩

/-- C3 amended: the result record is immutable with exactly the fields
predictions, loss, train_op, training_chief_hooks and training_hooks; the mode
passed at construction only drives validation and is not stored in the record,
so records built under different modes from the same arguments coincide. -/
theorem C3_record_fields (V : Type) (pv : List V) (lv tv : V) :
    (EstimatorSpec.new ModeKeys.TRAIN (some pv) (some lv) (some tv) none none =
      Except.ok ⟨some pv, some lv, some tv, [], []⟩) ∧
    (EstimatorSpec.new ModeKeys.EVAL (some pv) (some lv) (some tv) none none =
      EstimatorSpec.new ModeKeys.TRAIN (some pv) (some lv) (some tv) none none) :=
  ⟨rfl, rfl⟩

/-- C8: with the mode-required fields present (so that field validation cannot
fire first), a hook object failing the SessionRunHook capability test causes
construction to fail with a TypeError, wherever it sits in either sequence. -/
theorem C8_hook_type_check (V : Type) (pv : List V) (lv tv : V) (mode : ModeKeys)
    (ch th : Option (List HookObj))
    (hbad : ∃ h ∈ th.getD [] ++ ch.getD [], h.isSessionRunHook = false) :
    EstimatorSpec.new mode (some pv) (some lv) (some tv) ch th =
      Except.error (PyError.typeError "All hooks must be SessionRunHook instances") := by
  have hsome : ((th.getD [] ++ ch.getD []).find? (fun h => !h.isSessionRunHook)).isSome := by
    rw [List.find?_isSome]
    obtain ⟨h, hmem, hfalse⟩ := hbad
    exact ⟨h, hmem, by simp [hfalse]⟩
  obtain ⟨b, hb⟩ := Option.isSome_iff_exists.mp hsome
  cases mode <;> simp [EstimatorSpec.new, hb]

/-- C8 witness: a non-SessionRunHook object in the training_hooks argument is
rejected with a TypeError. -/
theorem C8_hook_type_check_witness :
    EstimatorSpec.new (V := Nat) ModeKeys.TRAIN (some [0]) (some 1) (some 2) none
      (some [⟨0, false⟩]) =
      Except.error (PyError.typeError "All hooks must be SessionRunHook instances") :=
  C8_hook_type_check Nat [0] 1 2 ModeKeys.TRAIN none (some [⟨0, false⟩])
    ⟨⟨0, false⟩, by simp, rfl⟩

/-- C9: hook arguments are materialized as ordered sequences in the record:
supplying none yields the empty sequence in that field (never a null value),
and supplied sequences are carried over in order when all hooks are valid. -/
theorem C9_hooks_materialized (V : Type) (pv : List V) (chl thl : List HookObj)
    (hok : ∀ h ∈ thl ++ chl, h.isSessionRunHook = true) :
    (EstimatorSpec.new (V := V) ModeKeys.INFER (some pv) none none none none =
      Except.ok ⟨some pv, none, none, [], []⟩) ∧
    (EstimatorSpec.new (V := V) ModeKeys.INFER (some pv) none none (some chl) (some thl) =
      Except.ok ⟨some pv, none, none, chl, thl⟩) := by
  refine ⟨rfl, ?_⟩
  have hnone : (thl ++ chl).find? (fun h => !h.isSessionRunHook) = none := by
    rw [List.find?_eq_none]
    intro x hx
    simp [hok x hx]
  simp [EstimatorSpec.new, hnone]

/-- C9 witness: concrete hook lists are carried over and none becomes []. -/
theorem C9_hooks_materialized_witness :
    (EstimatorSpec.new (V := Nat) ModeKeys.INFER (some [0]) none none none none =
      Except.ok ⟨some [0], none, none, [], []⟩) ∧
    (EstimatorSpec.new (V := Nat) ModeKeys.INFER (some [0]) none none
      (some [⟨1, true⟩]) (some [⟨2, true⟩]) =
      Except.ok ⟨some [0], none, none, [⟨1, true⟩], [⟨2, true⟩]⟩) :=
  C9_hooks_materialized Nat [0] [⟨1, true⟩] [⟨2, true⟩] (by decide)



/-- C5: mode-specific assembly of model_fn: in TRAIN mode the loss placed in
the result is the first element of the model build output; in EVAL mode only
the first element is extracted and the result carries loss only; in INFER mode
the entire build output becomes the predictions and the result carries
predictions only. -/
theorem C5_mode_specific_assembly (V : Type) (v : V) (vs : List V)
    (optF : V → V) (hF : Bool → Bool → List HookObj) (eF : Bool → List HookObj)
    (dm ch : Bool) :
    (∀ s : EstimatorSpec V,
      (modelFn ⟨v :: vs, optF, hF, eF⟩ ModeKeys.TRAIN dm ch).1 = Except.ok s →
      s.loss = some v) ∧
    (modelFn ⟨v :: vs, optF, hF, eF⟩ ModeKeys.EVAL dm ch =
      (Except.ok ⟨none, some v, none, [], []⟩, [])) ∧
    (∀ out : List V, modelFn ⟨out, optF, hF, eF⟩ ModeKeys.INFER dm ch =
      (Except.ok ⟨some out, none, none, [], []⟩, [])) := by
  refine ⟨?_, rfl, fun out => rfl⟩
  intro s h
  dsimp only [modelFn] at h
  have hs := EstimatorSpec.new_ok h
  rw [hs]

/-- C5 witness: concrete instantiation of the three mode assemblies. -/
theorem C5_mode_specific_assembly_witness :
    (⟨none, some 5, some 6, [], []⟩ : EstimatorSpec Nat).loss = some 5 :=
  (C5_mode_specific_assembly Nat 5 [] (fun x => x + 1) (fun _ _ => [])
    (fun _ => []) false true).1 ⟨none, some 5, some 6, [], []⟩ rfl

/-- C6: a TRAIN-mode model_fn call registers the display key and the training
loss into the two process-wide display collections exactly once each, in that
order; EVAL-mode and INFER-mode calls never write to those collections. -/
theorem C6_train_loss_registration (V : Type) (v : V) (vs : List V)
    (optF : V → V) (hF : Bool → Bool → List HookObj) (eF : Bool → List HookObj)
    (dm ch : Bool) :
    ((modelFn ⟨v :: vs, optF, hF, eF⟩ ModeKeys.TRAIN dm ch).2 =
      [(GlobalNames.DISPLAY_KEY_COLLECTION_NAME, Sum.inl GlobalNames.TRAIN_LOSS_KEY_NAME),
       (GlobalNames.DISPLAY_VALUE_COLLECTION_NAME, Sum.inr v)]) ∧
    (∀ inp : ModelFnInputs V, (modelFn inp ModeKeys.EVAL dm ch).2 = []) ∧
    (∀ inp : ModelFnInputs V, (modelFn inp ModeKeys.INFER dm ch).2 = []) := by
  refine ⟨rfl, ?_, fun inp => rfl⟩
  intro inp
  rcases inp with ⟨mo, o, h1, h2⟩
  cases mo <;> rfl

/-- C10: whenever a TRAIN-mode model_fn call succeeds, whatever the
distributed_mode and is_chief flags, the returned record has an empty
training_chief_hooks sequence and carries all assembled hooks, the
build_hooks output followed by the eval-metric hooks, in training_hooks. -/
theorem C10_chief_hooks_empty (V : Type) (inp : ModelFnInputs V) (dm ch : Bool)
    (s : EstimatorSpec V)
    (h : (modelFn inp ModeKeys.TRAIN dm ch).1 = Except.ok s) :
    s.training_chief_hooks = [] ∧
    s.training_hooks = inp.buildHooksFn dm ch ++ inp.buildEvalMetricsFn ch := by
  rcases inp with ⟨mo, o, hf, ef⟩
  cases mo with
  | nil => exact absurd h (by simp [modelFn])
  | cons v vs =>
    dsimp only [modelFn] at h
    have hs := EstimatorSpec.new_ok h
    rw [hs]
    exact ⟨rfl, rfl⟩

/-- C10 witness: concrete TRAIN call with one build hook and one metric hook. -/
theorem C10_chief_hooks_empty_witness :
    (⟨none, some 5, some 5, [], [⟨1, true⟩, ⟨2, true⟩]⟩ : EstimatorSpec Nat).training_chief_hooks = [] ∧
    (⟨none, some 5, some 5, [], [⟨1, true⟩, ⟨2, true⟩]⟩ : EstimatorSpec Nat).training_hooks =
      (fun (_ _ : Bool) => [(⟨1, true⟩ : HookObj)]) true true ++
      (fun (_ : Bool) => [(⟨2, true⟩ : HookObj)]) true :=
  C10_chief_hooks_empty Nat ⟨[5], id, fun _ _ => [⟨1, true⟩], fun _ => [⟨2, true⟩]⟩
    true true ⟨none, some 5, some 5, [], [⟨1, true⟩, ⟨2, true⟩]⟩ rfl



/-- C2: model-name inference during ensemble load: the variable name
"scopeA/input_symbol_modality/weights" infers the name "scopeA"; checkpoints
whose every listing is that variable all resolve to "scopeA"; a checkpoint
none of whose variables matches either marker makes the whole ensemble build
abort with the fatal unresolved-name assertion; and a checkpoint resolving to
the empty name, a falsy value, likewise aborts the build. -/
theorem C2_model_name_inference (V : Type) :
    (inspectVarnamePrefixFn "scopeA/input_symbol_modality/weights" = some "scopeA") ∧
    (∀ (ckpts : List (List String)) (preds : List V),
      (∀ c ∈ ckpts, c = ["scopeA/input_symbol_modality/weights"]) →
      ∃ r, modelFnEnsemble ckpts preds = Except.ok r ∧ ∀ m ∈ r.2, m.1 = "scopeA") ∧
    (∀ (ckpts : List (List String)) (c : List String) (preds : List V),
      c ∈ ckpts → (∀ v ∈ c, inspectVarnamePrefixFn v = none) →
      modelFnEnsemble ckpts preds =
        Except.error (PyError.assertionError "Fail to fetch model name")) ∧
    (∀ (ckpts : List (List String)) (c : List String) (preds : List V),
      c ∈ ckpts → checkpointModelName c = some "" →
      modelFnEnsemble ckpts preds =
        Except.error (PyError.assertionError "Fail to fetch model name")) := by
  refine ⟨rfl, ?_, ?_, ?_⟩
  · intro ckpts preds hall
    have hnames : ∀ c ∈ ckpts, checkpointModelName c = some "scopeA" := by
      intro c hc
      rw [hall c hc]
      rfl
    obtain ⟨ms, hms, hmsnames⟩ :=
      ensembleLoadLoop_ok_of_names "scopeA" (by decide) ckpts 0 hnames
    refine ⟨(⟨some preds, none, none, [], []⟩, ms), ?_, hmsnames⟩
    rw [modelFnEnsemble, hms]
    rfl
  · intro ckpts c preds hc hnone
    have hcm : checkpointModelName c = none := by
      rw [checkpointModelName, List.findSome?_eq_none_iff]
      intro v hv
      exact hnone v (List.mem_filter.mp hv).1
    rw [modelFnEnsemble, ensembleLoadLoop_error_of_falsy ckpts 0 c hc (Or.inl hcm)]
    rfl
  · intro ckpts c preds hc hempty
    rw [modelFnEnsemble, ensembleLoadLoop_error_of_falsy ckpts 0 c hc (Or.inr hempty)]
    rfl

/-- C2 witness: one good checkpoint builds with the inferred name, one
markerless checkpoint aborts the build, and one checkpoint whose inferred
name is empty (its variable name begins with a marker) also aborts. -/
theorem C2_model_name_inference_witness :
    ((modelFnEnsemble (V := Nat) [["scopeA/input_symbol_modality/weights"]] [0]).toOption.isSome
      = true) ∧
    (modelFnEnsemble (V := Nat) [["foo/bar"]] [0] =
      Except.error (PyError.assertionError "Fail to fetch model name")) ∧
    (modelFnEnsemble (V := Nat) [["/symbol_modality_/emb"]] [0] =
      Except.error (PyError.assertionError "Fail to fetch model name")) := by
  refine ⟨?_, ?_, ?_⟩
  · obtain ⟨r, hr, _⟩ := (C2_model_name_inference Nat).2.1
      [["scopeA/input_symbol_modality/weights"]] [0] (by simp)
    rw [hr]
    rfl
  · exact (C2_model_name_inference Nat).2.2.1 [["foo/bar"]] ["foo/bar"] [0] (by simp)
      (by intro v hv; simp at hv; subst hv; rfl)
  · exact (C2_model_name_inference Nat).2.2.2 [["/symbol_modality_/emb"]]
      ["/symbol_modality_/emb"] [0] (by simp) (by rfl)

/-- C4: every variable reloaded from checkpoint position i is declared under
the per-index scope, namely it is the index-i qualification of a non-optimizer
original name; and for any two distinct positions the qualified names never
collide, for arbitrary pairs of original names, hence in particular for
identical ones: the digit segment after the fixed base contains no slash, so
it delimits the index unambiguously. -/
theorem C4_namespace_disjoint :
    (∀ (i : Nat) (vars : List String),
      (loadCheckpointVars i vars).2 =
        (vars.filter (fun v => !(pyStartsWith v "OptimizeLoss"))).map (reloadedVarName i)) ∧
    (∀ (i j : Nat) (n m : String), i ≠ j →
      reloadedVarName i n ≠ reloadedVarName j m) := by
  refine ⟨loadCheckpointVars_snd, ?_⟩
  intro i j n m hij heq
  exact hij (reloadedVarName_inj heq).1

/-- C4 witness: an adversarial cross-name pair, where the original name at
position 1 starts with the digit of position 10, still gets distinct full
names; the hypothesis 1 ≠ 10 is discharged concretely. -/
theorem C4_namespace_disjoint_witness :
    reloadedVarName 1 "0/x" ≠ reloadedVarName 10 "x" :=
  C4_namespace_disjoint.2 1 10 "0/x" "x" (by decide)

/-- C7: a checkpoint variable whose name starts with the optimizer-state
marker OptimizeLoss is never re-declared inside the ensemble namespace, and
the resolved model name is computed from the non-optimizer variables only. -/
theorem C7_optimizer_vars_skipped (i : Nat) (vars : List String) (v : String)
    (hmem : v ∈ vars) (hopt : pyStartsWith v "OptimizeLoss" = true) :
    reloadedVarName i v ∉ (loadCheckpointVars i vars).2 ∧
    (loadCheckpointVars i vars).1 =
      (vars.filter (fun w => !(pyStartsWith w "OptimizeLoss"))).findSome?
        inspectVarnamePrefixFn := by
  constructor
  · rw [loadCheckpointVars_snd]
    intro hin
    obtain ⟨w, hwmem, hweq⟩ := List.mem_map.mp hin
    have hw : w = v := reloadedVarName_name_injective hweq
    subst hw
    have hcond := (List.mem_filter.mp hwmem).2
    rw [hopt] at hcond
    simp at hcond
  · rw [loadCheckpointVars_fst, checkpointModelName]

/-- C7 witness: an optimizer-state variable in a two-variable checkpoint is
not reloaded and does not affect the inferred name. -/
theorem C7_optimizer_vars_skipped_witness :
    reloadedVarName 0 "OptimizeLoss/x" ∉
      (loadCheckpointVars 0 ["OptimizeLoss/x", "m/symbol_modality_/emb"]).2 ∧
    (loadCheckpointVars 0 ["OptimizeLoss/x", "m/symbol_modality_/emb"]).1 =
      (["OptimizeLoss/x", "m/symbol_modality_/emb"].filter
        (fun w => !(pyStartsWith w "OptimizeLoss"))).findSome? inspectVarnamePrefixFn :=
  C7_optimizer_vars_skipped 0 ["OptimizeLoss/x", "m/symbol_modality_/emb"]
    "OptimizeLoss/x" (by simp) (by decide)

end ModelBuilder
